import Mathlib

/-!
Verification of the knowledge review-and-versioning workflow engine
(`knowledge/views.py`, `knowledge/models.py`, `knowledge/ai_stub.py`,
`knowledge/serializers.py`, `accounts/models.py`, `accounts/permissions.py`).

The Django views are embedded shallowly: the database is an explicit `DB`
record threaded through every operation, and each view becomes a pure
function `DB -> inputs -> DB x Except ErrResp payload`.  Django semantics
that matter here are modelled explicitly:

* `@transaction.atomic` rolls back writes only when an exception escapes
  the block; returning an error `Response` does NOT undo writes already
  performed inside the block.  Operations therefore return the state as
  the code leaves it on each path.
* DRF `permission_classes = [A, B]` requires ALL listed permissions, so
  the effective gate is the conjunction of the classes.
* `get_object_or_404(Model, id=..., uploaded_by=...)` is a primary-key
  lookup followed by the extra field filters (primary keys are unique).
-/

/-- Status choices of `KnowledgeResource.Status` (models.py). -/
inductive Status
  | DRAFT
  | PENDING_REVIEW
  | FLAGGED
  | APPROVED
  | REJECTED
  | PUBLISHED
  | UNPUBLISHED
  | CHANGE_REQUESTED
deriving DecidableEq, Repr

/-- Stage choices of `KnowledgeResource.ReviewStage` (models.py). -/
inductive ReviewStage
  | CHAMPION
  | REGIONAL_OFFICER
  | GOV_COUNCIL
deriving DecidableEq, Repr

/-- Region choices (accounts/models.py `Region`). -/
inductive Region
  | GLOBAL
  | EU
  | APAC
  | NA
  | SA
deriving DecidableEq, Repr

/-- Role choices (accounts/models.py `User.Role`). -/
inductive Role
  | EMPLOYEE
  | CHAMPION
  | OFFICER
  | COUNCIL
  | ADMIN
deriving DecidableEq, Repr

/-- Decision choices of `ReviewStep.Decision` (models.py). -/
inductive Decision
  | SUBMITTED
  | APPROVED
  | REJECTED
  | FLAGGED
  | CHANGES_REQUESTED
  | PUBLISHED
  | UNPUBLISHED
deriving DecidableEq, Repr

/-- Flag type choices of `AIFlag.FlagType` (models.py). -/
inductive FlagType
  | DUPLICATE
  | OUTDATED
  | METADATA
  | QUALITY
  | ERROR
deriving DecidableEq, Repr

/-- Severity choices of `AIFlag.Severity` (models.py). -/
inductive Severity
  | LOW
  | MEDIUM
  | HIGH
deriving DecidableEq, Repr

/-- An authenticated principal as consumed by the views:
`(user_id, role, region)`.  Django `User.region` is nullable. -/
structure User where
  id : Nat
  role : Role
  region : Option Region
deriving DecidableEq, Repr

/-- Row of `KnowledgeResourceVersion` (models.py).  `file` holds the opaque
blob-store reference of the uploaded file. -/
structure KnowledgeResourceVersion where
  id : Nat
  resourceId : Nat
  version_number : Nat
  file : String
  notes : String
  created_by : Nat
  created_at : Nat
deriving DecidableEq, Repr

/-- Row of `KnowledgeResource` (models.py).  `submitted_version` and
`latest_version` are nullable foreign keys to `KnowledgeResourceVersion`,
held here by id.  `tags` is the M2M tag set as normalized names, and
`metadata` the JSON object as a key-value list. -/
structure KnowledgeResource where
  id : Nat
  title : String
  description : String
  status : Status
  current_stage : ReviewStage
  submitted_at : Option Nat
  submitted_version : Option Nat
  region : Region
  uploaded_by : Nat
  tags : List String
  metadata : List (String × String)
  latest_version : Option Nat
  created_at : Nat
  updated_at : Nat
deriving DecidableEq, Repr

/-- Row of `ReviewStep` (models.py): append-only audit entry. -/
structure ReviewStep where
  id : Nat
  resourceId : Nat
  versionId : Option Nat
  stage : ReviewStage
  decision : Decision
  reviewer : Nat
  comment : String
  created_at : Nat
deriving DecidableEq, Repr

/-- Row of `AIFlag` (models.py). -/
structure AIFlag where
  id : Nat
  resourceId : Nat
  versionId : Option Nat
  flag_type : FlagType
  severity : Severity
  message : String
  created_at : Nat
deriving DecidableEq, Repr

/-- The persistent state the knowledge views read and write: the four
tables, the global `Tag` table (as names), fresh-id counters and a logical
clock used for `auto_now` timestamps. -/
structure DB where
  resources : List KnowledgeResource
  versions : List KnowledgeResourceVersion
  reviewSteps : List ReviewStep
  flags : List AIFlag
  tagNames : List String
  nextResourceId : Nat
  nextVersionId : Nat
  nextStepId : Nat
  nextFlagId : Nat
  now : Nat
deriving DecidableEq, Repr

/-- Error taxonomy of the spec (section 7), used to classify the error
responses the views return (HTTP 400 with a validation message, HTTP 400
with a state message, HTTP 403, HTTP 404, HTTP 500). -/
inductive ErrKind
  | ValidationError
  | InvalidState
  | Forbidden
  | NotFound
  | ServerError
deriving DecidableEq, Repr

/-- An error response: its taxonomy kind plus the `detail` message string
the view returns. -/
structure ErrResp where
  kind : ErrKind
  detail : String
deriving DecidableEq, Repr

/-- Extracts the error kind of an operation result, if it is an error. -/
def errKindOf {α : Type} : Except ErrResp α → Option ErrKind
  | .error e => some e.kind
  | .ok _ => none

/-- True when an operation result is an error response. -/
def isErr {α : Type} : Except ErrResp α → Bool
  | .error _ => true
  | .ok _ => false

/-- Primary-key lookup in the resource table (`objects.get(id=...)` /
`get_object_or_404(KnowledgeResource, id=...)`). -/
def findById : List KnowledgeResource → Nat → Option KnowledgeResource
  | [], _ => none
  | r :: rs, rid => if r.id = rid then some r else findById rs rid

/-- Lookup `get_object_or_404(KnowledgeResource, id=..., uploaded_by=...)`:
a primary-key lookup whose result must also satisfy the uploader filter. -/
def findOwned (rs : List KnowledgeResource) (rid : Nat) (uid : Nat) :
    Option KnowledgeResource :=
  match findById rs rid with
  | some r => if r.uploaded_by = uid then some r else none
  | none => none

/-- Primary-key lookup in the version table. -/
def findVersion : List KnowledgeResourceVersion → Nat → Option KnowledgeResourceVersion
  | [], _ => none
  | v :: vs, vid => if v.id = vid then some v else findVersion vs vid

/-- Writes back a saved resource object over every row carrying its id
(`resource.save(...)`; primary keys are unique so at most one row). -/
def updateById (rs : List KnowledgeResource) (rid : Nat)
    (nr : KnowledgeResource) : List KnowledgeResource :=
  rs.map fun x => if x.id = rid then nr else x

/-- Status of the resource with the given id, as observed in a state. -/
def statusOf (db : DB) (rid : Nat) : Option Status :=
  (findById db.resources rid).map (·.status)

/-- Current stage of the resource with the given id. -/
def stageOf (db : DB) (rid : Nat) : Option ReviewStage :=
  (findById db.resources rid).map (·.current_stage)

/-- Submitted-version lock of the resource with the given id
(`some none` = resource exists with a null lock). -/
def submittedVersionOf (db : DB) (rid : Nat) : Option (Option Nat) :=
  (findById db.resources rid).map (·.submitted_version)

/-- Latest-version pointer of the resource with the given id. -/
def latestVersionOf (db : DB) (rid : Nat) : Option (Option Nat) :=
  (findById db.resources rid).map (·.latest_version)

/-- Region of the resource with the given id. -/
def regionOf (db : DB) (rid : Nat) : Option Region :=
  (findById db.resources rid).map (·.region)

/-- Tag set of the resource with the given id. -/
def tagsOf (db : DB) (rid : Nat) : Option (List String) :=
  (findById db.resources rid).map (·.tags)

/-- Membership test of a key in a JSON object
(Python `"confidentiality" not in meta`). -/
def metaHasKey (m : List (String × String)) (k : String) : Bool :=
  m.any fun p => p.1 = k

/-- Prefix test on character lists (kernel-reducible; the core `String`
search functions use well-founded recursion the kernel cannot unfold). -/
def isPrefixCL : List Char → List Char → Bool
  | [], _ => true
  | _ :: _, [] => false
  | p :: ps, c :: cs => if p = c then isPrefixCL ps cs else false

/-- Substring test (Python `"draft" in title`), scanning every start
position. -/
def containsSubCL (pat : List Char) : List Char → Bool
  | [] => pat.isEmpty
  | c :: cs => isPrefixCL pat (c :: cs) || containsSubCL pat cs

/-- Substring test on strings. -/
def containsSub (s pat : String) : Bool :=
  containsSubCL pat.data s.data

/-- Lower-casing (Python `str.lower`, ASCII range). -/
def strLower (s : String) : String :=
  ⟨s.data.map Char.toLower⟩

/-- Whitespace trim on both ends (Python `str.strip`). -/
def trimCL (l : List Char) : List Char :=
  ((l.dropWhile Char.isWhitespace).reverse.dropWhile Char.isWhitespace).reverse

/-- Whitespace trim on strings. -/
def strTrim (s : String) : String :=
  ⟨trimCL s.data⟩

/-- Prefix test on strings. -/
def strStartsWith (s pre : String) : Bool :=
  isPrefixCL pre.data s.data

/-- Suffix test on strings. -/
def strEndsWith (s suf : String) : Bool :=
  isPrefixCL suf.data.reverse s.data.reverse

/-- Drops the first `n` characters. -/
def strDropFirst (s : String) (n : Nat) : String :=
  ⟨s.data.drop n⟩

/-- Drops the last `n` characters. -/
def strDropLast (s : String) (n : Nat) : String :=
  ⟨s.data.take (s.data.length - n)⟩

/-- Splits a character list at every separator position (Python
`str.split(sep)` semantics: empty pieces are kept). -/
def splitPredCL (p : Char → Bool) : List Char → List (List Char)
  | [] => [[]]
  | c :: cs =>
    match splitPredCL p cs with
    | [] => [[]]
    | h :: t => if p c then [] :: h :: t else (c :: h) :: t

/-- Splits a string on commas (Python `s.split(",")`). -/
def strSplitCommas (s : String) : List String :=
  (splitPredCL (fun c => c = ',') s.data).map (fun l => ⟨l⟩)

/-- Joins character lists with single spaces (Python `" ".join(...)`). -/
def joinSpaceCL : List (List Char) → List Char
  | [] => []
  | [x] => x
  | x :: y :: xs => x ++ ' ' :: joinSpaceCL (y :: xs)

/-- The `IsReviewer` permission (accounts/permissions.py): role is one of
CHAMPION, OFFICER, ADMIN, COUNCIL.  All modelled callers are
authenticated, so the `is_authenticated` conjunct is always true. -/
def isReviewerRole (r : Role) : Bool :=
  r = .CHAMPION ∨ r = .OFFICER ∨ r = .ADMIN ∨ r = .COUNCIL

/-- Role required to decide at a stage, read off the three stage
authorization guards in `ReviewDecisionView.post` (views.py lines
139-146): CHAMPION needs `IsChampion`, REGIONAL_OFFICER needs
`IsOfficer`, GOV_COUNCIL needs `IsGovCouncil`. -/
def stageRoleMatches (role : Role) (stage : ReviewStage) : Bool :=
  match stage with
  | .CHAMPION => role = .CHAMPION
  | .REGIONAL_OFFICER => role = .OFFICER
  | .GOV_COUNCIL => role = .COUNCIL

/-- Findings computed by `run_ai_check` (ai_stub.py lines 10-25), in
source order: outdated-title, missing-tags, missing-confidentiality,
short-description. -/
def aiFindings (r : KnowledgeResource) : List (FlagType × Severity × String) :=
  (if containsSub (strLower r.title) "draft" ∨ containsSub (strLower r.title) "v0" then
    [(.OUTDATED, .HIGH, "Title suggests draft/outdated content.")] else [])
  ++ (if r.tags.isEmpty then
    [(.METADATA, .MEDIUM, "Missing tags; improves search and recommendations.")] else [])
  ++ (if ¬ metaHasKey r.metadata "confidentiality" then
    [(.METADATA, .HIGH, "Missing confidentiality in metadata (needed for compliance).")] else [])
  ++ (if 0 < (strTrim r.description).length ∧ (strTrim r.description).length < 30 then
    [(.QUALITY, .LOW, "Description is very short; may reduce usefulness.")] else [])

/-- Persists one `AIFlag` row per finding (`AIFlag.objects.create` loop in
ai_stub.py lines 27-37), all bound to the same version id. -/
def addFlagRows (db : DB) (rid : Nat) (v : Option Nat) :
    List (FlagType × Severity × String) → DB
  | [] => db
  | (ft, sv, m) :: rest =>
      addFlagRows
        { db with
          flags := db.flags ++
            [{ id := db.nextFlagId, resourceId := rid, versionId := v,
               flag_type := ft, severity := sv, message := m,
               created_at := db.now }]
          nextFlagId := db.nextFlagId + 1
          now := db.now + 1 }
        rid v rest

/-- Embeds `run_ai_check(resource, version)` (ai_stub.py): the version
defaults to `resource.latest_version` when none is passed (Python
`version or getattr(resource, "latest_version", None)`), then one flag
row is created per finding. -/
def run_ai_check (db : DB) (r : KnowledgeResource) (version : Option Nat) : DB :=
  let v := match version with
    | some x => some x
    | none => r.latest_version
  addFlagRows db r.id v (aiFindings r)

/-- Embeds `SubmitForReviewView.post` (views.py lines 20-63).  The
`aiRaises` argument injects the failure mode of the Flag Generator: when
true, `run_ai_check` raises, and because the call sits inside
`@transaction.atomic` with no try/except, the exception escapes the
block and every write of the request (the resource update and the
Submitted step) is rolled back; the caller receives a server error. -/
def submitOp (db : DB) (caller : User) (rid : Nat) (aiRaises : Bool) :
    DB × Except ErrResp Nat :=
  match findOwned db.resources rid caller.id with
  | none => (db, .error ⟨.NotFound, "Not found."⟩)
  | some r =>
    if r.status = .APPROVED ∨ r.status = .PUBLISHED then
      (db, .error ⟨.InvalidState, "Cannot submit approved/published resources."⟩)
    else if r.status = .PENDING_REVIEW then
      (db, .error ⟨.InvalidState, "Already submitted for review."⟩)
    else
      match r.latest_version with
      | none =>
        (db, .error ⟨.ValidationError,
          "No file version uploaded yet. Upload a version first."⟩)
      | some lv =>
        let r1 : KnowledgeResource :=
          { r with
            submitted_version := some lv
            status := .PENDING_REVIEW
            current_stage := .CHAMPION
            submitted_at := some db.now
            updated_at := db.now }
        let db1 : DB :=
          { db with resources := updateById db.resources rid r1, now := db.now + 1 }
        let step : ReviewStep :=
          { id := db1.nextStepId, resourceId := r.id, versionId := some lv,
            stage := .CHAMPION, decision := .SUBMITTED, reviewer := caller.id,
            comment := "Submitted for review", created_at := db1.now }
        let db2 : DB :=
          { db1 with reviewSteps := db1.reviewSteps ++ [step],
                     nextStepId := db1.nextStepId + 1, now := db1.now + 1 }
        if aiRaises then
          (db, .error ⟨.ServerError,
            "run_ai_check raised; the atomic transaction was rolled back."⟩)
        else
          let db3 := run_ai_check db2 r1 (some lv)
          (db3, .ok (match findVersion db3.versions lv with
                     | some v => v.version_number
                     | none => 0))

/-- Input domain of `ReviewDecisionSerializer.decision` (serializers.py):
the `ChoiceField` admits exactly these four decisions, so any other
payload never reaches the view body. -/
inductive ReviewDecisionInput
  | APPROVED
  | REJECTED
  | FLAGGED
  | CHANGES_REQUESTED
deriving DecidableEq, Repr

/-- Maps a validated decision input to the `ReviewStep.Decision` value
stored on the audit row. -/
def decisionOf : ReviewDecisionInput → Decision
  | .APPROVED => .APPROVED
  | .REJECTED => .REJECTED
  | .FLAGGED => .FLAGGED
  | .CHANGES_REQUESTED => .CHANGES_REQUESTED

/-- Embeds `ReviewDecisionView.post` (views.py lines 113-204).  Guard
order mirrors the source: `IsReviewer` permission gate, 404 lookup,
pending-review check, serializer validation (the `comments` CharField
caps at 2000 characters; the decision choice is enforced by the input
type), stage authorization, submitted-version presence.  On APPROVED at
GOV_COUNCIL the source updates only `status` and `updated_at`
(`update_fields=["status", "updated_at"]`): `submitted_version` is left
as it was. -/
def decideOp (db : DB) (caller : User) (rid : Nat)
    (d : ReviewDecisionInput) (comments : String) :
    DB × Except ErrResp String :=
  if ¬ isReviewerRole caller.role then
    (db, .error ⟨.Forbidden, "You do not have permission to perform this action."⟩)
  else
    match findById db.resources rid with
    | none => (db, .error ⟨.NotFound, "Not found."⟩)
    | some r =>
      if r.status ≠ .PENDING_REVIEW then
        (db, .error ⟨.InvalidState, "Resource is not pending review."⟩)
      else if comments.length > 2000 then
        (db, .error ⟨.ValidationError,
          "Ensure this field has no more than 2000 characters."⟩)
      else
        let stage := r.current_stage
        if stage = .CHAMPION ∧ caller.role ≠ .CHAMPION then
          (db, .error ⟨.Forbidden, "Only Champions can review at this stage."⟩)
        else if stage = .REGIONAL_OFFICER ∧ caller.role ≠ .OFFICER then
          (db, .error ⟨.Forbidden, "Only Officers can review at this stage."⟩)
        else if stage = .GOV_COUNCIL ∧ caller.role ≠ .COUNCIL then
          (db, .error ⟨.Forbidden, "Only Admin (Gov Council) can review at this stage."⟩)
        else
          match r.submitted_version with
          | none =>
            (db, .error ⟨.InvalidState,
              "No submitted_version found for this review. Submit the resource again."⟩)
          | some sv =>
            let step : ReviewStep :=
              { id := db.nextStepId, resourceId := r.id, versionId := some sv,
                stage := stage, decision := decisionOf d, reviewer := caller.id,
                comment := comments, created_at := db.now }
            let db1 : DB :=
              { db with reviewSteps := db.reviewSteps ++ [step],
                        nextStepId := db.nextStepId + 1, now := db.now + 1 }
            match d with
            | .REJECTED =>
              let nr : KnowledgeResource :=
                { r with status := .REJECTED, submitted_version := none,
                         updated_at := db1.now }
              ({ db1 with resources := updateById db1.resources rid nr },
               .ok "Resource rejected.")
            | .FLAGGED =>
              let nr : KnowledgeResource :=
                { r with status := .FLAGGED, submitted_version := none,
                         updated_at := db1.now }
              ({ db1 with resources := updateById db1.resources rid nr },
               .ok "Resource flagged.")
            | .CHANGES_REQUESTED =>
              let nr : KnowledgeResource :=
                { r with status := .DRAFT, submitted_version := none,
                         updated_at := db1.now }
              ({ db1 with resources := updateById db1.resources rid nr },
               .ok "Changes requested. Sent back to draft.")
            | .APPROVED =>
              match stage with
              | .CHAMPION =>
                let nr : KnowledgeResource :=
                  { r with current_stage := .REGIONAL_OFFICER, updated_at := db1.now }
                ({ db1 with resources := updateById db1.resources rid nr },
                 .ok "Approved. Sent to Officer stage.")
              | .REGIONAL_OFFICER =>
                let nr : KnowledgeResource :=
                  { r with current_stage := .GOV_COUNCIL, updated_at := db1.now }
                ({ db1 with resources := updateById db1.resources rid nr },
                 .ok "Approved. Sent to Governance Council stage.")
              | .GOV_COUNCIL =>
                let nr : KnowledgeResource :=
                  { r with status := .APPROVED, updated_at := db1.now }
                ({ db1 with resources := updateById db1.resources rid nr },
                 .ok "Approved by Governance Council. Resource approved.")

/-- Embeds `PublishResourceView.post` (views.py lines 402-439).  The view
declares `permission_classes = [IsEmployee, IsGovCouncil]`; DRF requires
every listed class to pass, and `IsGovCouncil` demands role COUNCIL, so
the gate admits only Council callers.  The in-view uploader-or-Council
check and the status check follow the source order. -/
def publishOp (db : DB) (caller : User) (rid : Nat) :
    DB × Except ErrResp String :=
  if ¬ caller.role = .COUNCIL then
    (db, .error ⟨.Forbidden, "You do not have permission to perform this action."⟩)
  else
    match findById db.resources rid with
    | none => (db, .error ⟨.NotFound, "Not found."⟩)
    | some r =>
      if r.uploaded_by ≠ caller.id ∧ caller.role ≠ .COUNCIL then
        (db, .error ⟨.Forbidden, "Only the uploader or Council can publish this resource."⟩)
      else if r.status ≠ .APPROVED ∧ r.status ≠ .UNPUBLISHED then
        (db, .error ⟨.InvalidState, "Only APPROVED resources and unpublished can be published."⟩)
      else
        let nr : KnowledgeResource :=
          { r with status := .PUBLISHED, updated_at := db.now }
        let db1 : DB :=
          { db with resources := updateById db.resources rid nr, now := db.now + 1 }
        let step : ReviewStep :=
          { id := db1.nextStepId, resourceId := r.id, versionId := r.latest_version,
            stage := r.current_stage, decision := .PUBLISHED, reviewer := caller.id,
            comment := "Published by uploader", created_at := db1.now }
        ({ db1 with reviewSteps := db1.reviewSteps ++ [step],
                    nextStepId := db1.nextStepId + 1, now := db1.now + 1 },
         .ok "Resource published.")

/-- Embeds `UnpublishResourceView.post` (views.py lines 516-548).  The
gate `permission_classes = [IsGovCouncil]` admits only Council callers,
so the in-view Council-or-Admin allowance can never actually admit an
Admin.  Status guard and side effects follow the source. -/
def unpublishOp (db : DB) (caller : User) (rid : Nat) :
    DB × Except ErrResp String :=
  if ¬ caller.role = .COUNCIL then
    (db, .error ⟨.Forbidden, "You do not have permission to perform this action."⟩)
  else if ¬ (caller.role = .COUNCIL ∨ caller.role = .ADMIN) then
    (db, .error ⟨.Forbidden, "Only Governance Council or Admin can unpublish."⟩)
  else
    match findById db.resources rid with
    | none => (db, .error ⟨.NotFound, "Not found."⟩)
    | some r =>
      if r.status ≠ .PUBLISHED then
        (db, .error ⟨.InvalidState, "Only PUBLISHED resources can be unpublished."⟩)
      else
        let nr : KnowledgeResource :=
          { r with status := .UNPUBLISHED, updated_at := db.now }
        let db1 : DB :=
          { db with resources := updateById db.resources rid nr, now := db.now + 1 }
        let step : ReviewStep :=
          { id := db1.nextStepId, resourceId := r.id, versionId := r.latest_version,
            stage := r.current_stage, decision := .UNPUBLISHED, reviewer := caller.id,
            comment := "Unpublished by governance", created_at := db1.now }
        ({ db1 with reviewSteps := db1.reviewSteps ++ [step],
                    nextStepId := db1.nextStepId + 1, now := db1.now + 1 },
         .ok "Resource unpublished.")

/-- The region filter of `ReviewQueueView.get` (views.py lines 94-105):
a region-limited reviewer sees resources of their own region or GLOBAL;
a reviewer with no region sees only GLOBAL. -/
def regionAllowed (u : User) (r : KnowledgeResource) : Bool :=
  match u.region with
  | some ur => r.region = ur ∨ r.region = .GLOBAL
  | none => r.region = .GLOBAL

/-- Sort key rank encoding the Postgres `ORDER BY submitted_at DESC`
placement of NULLs: under descending order Postgres treats NULL as
greater than every value, so a null `submitted_at` sorts first.  The
rank is compared before the value. -/
def subRank : Option Nat → Nat
  | none => 1
  | some _ => 0

/-- Timestamp value of an optional `submitted_at` (0 when null; the rank
already separates null from non-null). -/
def subVal : Option Nat → Nat
  | none => 0
  | some t => t

/-- Row `a` may precede row `b` under
`order_by("-submitted_at", "-created_at")` (views.py line 107):
descending `submitted_at` (nulls first on Postgres), ties broken by
descending `created_at`. -/
def queueBefore (a b : KnowledgeResource) : Bool :=
  decide (subRank b.submitted_at < subRank a.submitted_at
    ∨ (subRank a.submitted_at = subRank b.submitted_at
        ∧ (subVal b.submitted_at < subVal a.submitted_at
           ∨ (subVal a.submitted_at = subVal b.submitted_at
              ∧ b.created_at ≤ a.created_at))))

/-- The queue ordering as a relation, used with `List.insertionSort`. -/
def QBefore (a b : KnowledgeResource) : Prop :=
  queueBefore a b = true

instance : DecidableRel QBefore :=
  fun a b => inferInstanceAs (Decidable (queueBefore a b = true))

/-- Embeds `ReviewQueueView.get` (views.py lines 65-109): the permission
gate is `IsReviewer`; Champion and Officer roles get their stage queue
limited by region, Council and Admin get the GOV_COUNCIL queue over all
regions, anyone else is rejected.  The rows are filtered by
`status = PENDING_REVIEW` and the stage, then sorted.  The view performs
no writes, so the state component of the result is the input state. -/
def reviewQueue (db : DB) (u : User) :
    DB × Except ErrResp (List KnowledgeResource) :=
  if u.role = .CHAMPION then
    (db, .ok (List.insertionSort QBefore (db.resources.filter fun r =>
      r.status = .PENDING_REVIEW ∧ r.current_stage = .CHAMPION ∧ regionAllowed u r)))
  else if u.role = .OFFICER then
    (db, .ok (List.insertionSort QBefore (db.resources.filter fun r =>
      r.status = .PENDING_REVIEW ∧ r.current_stage = .REGIONAL_OFFICER ∧ regionAllowed u r)))
  else if u.role = .COUNCIL ∨ u.role = .ADMIN then
    (db, .ok (List.insertionSort QBefore (db.resources.filter fun r =>
      r.status = .PENDING_REVIEW ∧ r.current_stage = .GOV_COUNCIL)))
  else
    (db, .error ⟨.Forbidden, "Not allowed."⟩)

/-- Stand-in for `json.loads` restricted to flat JSON lists of strings,
which is the only JSON shape the tag-parsing code consumes.  Returns
`none` exactly where `json.loads` raises `JSONDecodeError` on such input
(or yields a non-list, which the source also rejects): accepted strings
are a bracketed, comma-separated sequence of double-quoted items. -/
def parseJsonStringList (s : String) : Option (List String) :=
  if strStartsWith s "[" ∧ strEndsWith s "]" ∧ s.length ≥ 2 then
    let inner := strTrim (strDropLast (strDropFirst s 1) 1)
    if inner.data.isEmpty then some []
    else
      (strSplitCommas inner).foldr
        (fun p acc =>
          match acc with
          | none => none
          | some l =>
            let q := strTrim p
            if strStartsWith q "\"" ∧ strEndsWith q "\"" ∧ q.length ≥ 2 then
              some ((strDropLast (strDropFirst q 1) 1) :: l)
            else none)
        (some [])
  else none

/-- The `tags` field of a multipart request as the view receives it:
either absent, or the list `QueryDict.getlist("tags")` of submitted
values (a single element when the client sent one string). -/
inductive TagsField
  | absent
  | values (vs : List String)
deriving DecidableEq, Repr

/-- Embeds `UploadNewVersionView._parse_tags_from_request` (views.py
lines 220-258).  More than one repeated key is taken as the list; with
at most one value the code falls back to `data.get("tags")` (the last
value or None), treats None/empty as no tags, parses a `[`-prefixed
string as a JSON list (raising `ValueError` on failure), and otherwise
splits on commas. -/
def parse_tags_from_request (tags : TagsField) : Except String (List String) :=
  match tags with
  | .absent => .ok []
  | .values vs =>
    if vs.length > 1 then .ok vs
    else
      match vs.getLast? with
      | none => .ok []
      | some raw =>
        if raw = "" then .ok []
        else
          let s := strTrim raw
          if strStartsWith s "[" then
            match parseJsonStringList s with
            | some l => .ok l
            | none => .error "tags must be a valid JSON list or comma-separated string."
          else
            .ok (((strSplitCommas s).map strTrim).filter (· ≠ ""))

/-- Tag normalization `" ".join(str(t).strip().split()).lower()`
(views.py line 368, serializers.py line 141): whitespace runs collapse
to single spaces, surrounding whitespace is dropped, and the result is
lower-cased. -/
def normalizeTag (t : String) : String :=
  strLower ⟨joinSpaceCL ((splitPredCL Char.isWhitespace t.data).filter
    (fun piece => ¬ piece.isEmpty))⟩

/-- Inserts tag names into the global `Tag` table
(`Tag.objects.get_or_create(name=clean)`). -/
def addTagNames (table : List String) : List String → List String
  | [] => table
  | t :: ts => addTagNames (if table.contains t then table else table ++ [t]) ts

/-- The `region` query value: a raw string validated against the model
field choices (views.py lines 299-305). -/
def regionFromString (s : String) : Option Region :=
  if s = "GLOBAL" then some .GLOBAL
  else if s = "EU" then some .EU
  else if s = "APAC" then some .APAC
  else if s = "NA" then some .NA
  else if s = "SA" then some .SA
  else none

/-- Outcome of the Python-side decoding of the `metadata` multipart
value (views.py lines 309-332), abstracted from `json.loads`: the field
is absent, an empty string (reset to an empty object), a decoded JSON
object, a JSON value that is not an object, or a string `json.loads`
rejects. -/
inductive MetaField
  | emptyStr
  | objVal (kvs : List (String × String))
  | notAnObject
  | invalidJson
deriving DecidableEq, Repr

/-- Request payload of `UploadNewVersionView.post`. -/
structure UploadVersionParams where
  title : Option String
  description : Option String
  region : Option String
  metadata : Option MetaField
  file : Option String
  notes : Option String
  tags : TagsField
deriving DecidableEq, Repr

/-- Applies the optional in-memory `region` update (views.py lines
299-307); an invalid code yields the 400 response. -/
def regionStep (r : KnowledgeResource) (reg : Option String) :
    Except ErrResp KnowledgeResource :=
  match reg with
  | none => .ok r
  | some s =>
    match regionFromString s with
    | some rg => .ok { r with region := rg }
    | none => .error ⟨.ValidationError, "Invalid region. Must be one of the region choices."⟩

/-- Applies the optional in-memory `metadata` update (views.py lines
309-332). -/
def metadataStep (r : KnowledgeResource) (m : Option MetaField) :
    Except ErrResp KnowledgeResource :=
  match m with
  | none => .ok r
  | some .emptyStr => .ok { r with metadata := [] }
  | some (.objVal kvs) => .ok { r with metadata := kvs }
  | some .invalidJson =>
    .error ⟨.ValidationError, "metadata must be valid JSON (use double quotes)."⟩
  | some .notAnObject =>
    .error ⟨.ValidationError, "metadata JSON must be an object."⟩

/-- The optional in-memory field updates of `UploadNewVersionView.post`
(views.py lines 284-332), in source order: title, description, region,
metadata.  The updates live only on the fetched object until the final
`resource.save`; an invalid region or metadata value returns the 400
response before any database write. -/
def applyOptionalUpdates (r : KnowledgeResource) (p : UploadVersionParams) :
    Except ErrResp KnowledgeResource :=
  let r1 := match p.title with
    | some t => { r with title := t }
    | none => r
  let r2 := match p.description with
    | some dsc => { r1 with description := dsc }
    | none => r1
  match regionStep r2 p.region with
  | .error e => .error e
  | .ok r3 => metadataStep r3 p.metadata

/-- The version-number allocation of the source (views.py lines
346-347): `resource.versions.order_by("-version_number").first()`, then
1 when no version exists, else that maximum plus one. -/
def dbNextVersionNumber (db : DB) (rid : Nat) : Nat :=
  match (db.versions.filter (fun v => v.resourceId = rid)).map (·.version_number) with
  | [] => 1
  | n :: ns => ns.foldl max n + 1

/-- The maximum existing version number of a resource (0 when none
exist), stated independently of the allocation code as the fold of
`max` over all version numbers of the resource. -/
def maxVersionNumber (db : DB) (rid : Nat) : Nat :=
  ((db.versions.filter (fun v => v.resourceId = rid)).map (·.version_number)).foldl max 0

/-- Embeds `UploadNewVersionView.post` (views.py lines 260-398).  The
order of effects mirrors the source exactly: ownership lookup, status
guard, in-memory field updates (validated but not yet saved), file
presence check, creation of the next `KnowledgeResourceVersion` row,
tag parsing (a `ValueError` here returns a 400 response AFTER the
version row was written — returning a response does not abort the
atomic block, so the row stays), tag replacement, then the single
`resource.save` carrying the pointer/status reset. -/
def uploadNewVersion (db : DB) (caller : User) (rid : Nat)
    (p : UploadVersionParams) : DB × Except ErrResp Nat :=
  match findOwned db.resources rid caller.id with
  | none => (db, .error ⟨.NotFound, "Not found."⟩)
  | some r =>
    if ¬ (r.status = .DRAFT ∨ r.status = .REJECTED ∨ r.status = .FLAGGED
          ∨ r.status = .APPROVED ∨ r.status = .CHANGE_REQUESTED) then
      (db, .error ⟨.InvalidState,
        "Cannot upload a new version while resource is in review/published."⟩)
    else
      match applyOptionalUpdates r p with
      | .error e => (db, .error e)
      | .ok r4 =>
      match p.file with
      | none => (db, .error ⟨.ValidationError, "file is required."⟩)
      | some f =>
        let notes := match p.notes with
          | some n => n
          | none => ""
        let nextNumber := dbNextVersionNumber db rid
        let newV : KnowledgeResourceVersion :=
          { id := db.nextVersionId, resourceId := rid,
            version_number := nextNumber, file := f, notes := notes,
            created_by := caller.id, created_at := db.now }
        let db1 : DB :=
          { db with versions := db.versions ++ [newV],
                    nextVersionId := db.nextVersionId + 1,
                    now := db.now + 1 }
        match parse_tags_from_request p.tags with
        | .error msg => (db1, .error ⟨.ValidationError, msg⟩)
        | .ok tagsList =>
          let cleaned := ((tagsList.map normalizeTag).filter (· ≠ ""))
          let db2 : DB := { db1 with tagNames := addTagNames db1.tagNames cleaned }
          let r5 : KnowledgeResource :=
            { r4 with current_stage := .CHAMPION,
                      latest_version := some newV.id,
                      status := .DRAFT,
                      submitted_version := none,
                      tags := cleaned,
                      updated_at := db2.now }
          ({ db2 with resources := updateById db2.resources rid r5 },
           .ok nextNumber)

/-- Request payload of `KnowledgeResourceUploadView.post` as validated
by `KnowledgeResourceCreateSerializer`: `tags` is an optional CharField
string, `file` a required FileField, `metadata` the decoded JSON
object.  `region` is read-only on the serializer, so a client-sent
region never reaches `create`. -/
structure CreateParams where
  title : String
  description : String
  metadata : List (String × String)
  file : Option String
  tags : Option String
deriving DecidableEq, Repr

/-- Tag-string decoding of `KnowledgeResourceCreateSerializer.create`
(serializers.py lines 119-127): a `[`-prefixed string is tried as a
JSON list with fallback to a one-element list on decode failure, any
other string splits on commas.  (The later single-element re-parse
block, lines 129-137, re-runs the same decode on the same string and
therefore never changes the result for CharField input.) -/
def createTagsList (tags : Option String) : List String :=
  match tags with
  | none => []
  | some raw0 =>
    let raw := strTrim raw0
    if strStartsWith raw "[" then
      match parseJsonStringList raw with
      | some l => l
      | none => [raw]
    else
      (((strSplitCommas raw).map strTrim).filter (· ≠ ""))

/-- Embeds `KnowledgeResourceUploadView.post` together with
`KnowledgeResourceCreateSerializer.create` (serializers.py lines
94-158): the file is required by the serializer; the region is forced
from the uploader profile and creation fails when the profile has no
region; v1 is created with `version_number = 1` and `latest_version`
points at it.  Returns the new resource id. -/
def createResource (db : DB) (caller : User) (p : CreateParams) :
    DB × Except ErrResp Nat :=
  match p.file with
  | none => (db, .error ⟨.ValidationError, "No file was submitted."⟩)
  | some f =>
    match caller.region with
    | none =>
      (db, .error ⟨.ValidationError, "Your profile does not have a region configured."⟩)
    | some userRegion =>
      let rid := db.nextResourceId
      let cleaned := (((createTagsList p.tags).map normalizeTag).filter (· ≠ ""))
      let vid := db.nextVersionId
      let v1 : KnowledgeResourceVersion :=
        { id := vid, resourceId := rid, version_number := 1, file := f,
          notes := "", created_by := caller.id, created_at := db.now }
      let res : KnowledgeResource :=
        { id := rid, title := p.title, description := p.description,
          status := .DRAFT, current_stage := .CHAMPION,
          submitted_at := none, submitted_version := none,
          region := userRegion, uploaded_by := caller.id,
          tags := cleaned, metadata := p.metadata,
          latest_version := some vid,
          created_at := db.now, updated_at := db.now }
      ({ db with
          resources := db.resources ++ [res]
          versions := db.versions ++ [v1]
          tagNames := addTagNames db.tagNames cleaned
          nextResourceId := rid + 1
          nextVersionId := vid + 1
          now := db.now + 1 },
       .ok rid)

/-- A successful primary-key lookup returns a row carrying that key. -/
theorem findById_eq_id (rs : List KnowledgeResource) (rid : Nat)
    (r : KnowledgeResource) (h : findById rs rid = some r) : r.id = rid := by
  induction rs with
  | nil => simp [findById] at h
  | cons x xs ih =>
    simp only [findById] at h
    by_cases hx : x.id = rid
    · rw [if_pos hx] at h
      injection h with h
      rw [← h]
      exact hx
    · rw [if_neg hx] at h
      exact ih h

/-- An ownership lookup is a primary-key lookup plus the uploader filter. -/
theorem findOwned_some (rs : List KnowledgeResource) (rid uid : Nat)
    (r : KnowledgeResource) (h : findOwned rs rid uid = some r) :
    findById rs rid = some r ∧ r.uploaded_by = uid := by
  unfold findOwned at h
  cases hf : findById rs rid with
  | none => rw [hf] at h; exact absurd h (by simp)
  | some r0 =>
    rw [hf] at h
    dsimp only at h
    by_cases hu : r0.uploaded_by = uid
    · rw [if_pos hu] at h
      injection h with h
      subst h
      exact ⟨rfl, hu⟩
    · rw [if_neg hu] at h
      exact absurd h (by simp)

/-- Saving a row under the key a prior lookup succeeded on makes the next
lookup return the saved row. -/
theorem findById_updateById_self (rs : List KnowledgeResource) (rid : Nat)
    (r nr : KnowledgeResource) (h : findById rs rid = some r)
    (hid : nr.id = rid) :
    findById (updateById rs rid nr) rid = some nr := by
  induction rs with
  | nil => simp [findById] at h
  | cons x xs ih =>
    simp only [findById, updateById, List.map] at *
    by_cases hx : x.id = rid
    · rw [if_pos hx, if_pos hid]
    · rw [if_neg hx] at h ⊢
      rw [if_neg hx]
      exact ih h

/-- Saving a row under one key leaves lookups under any other key
unchanged. -/
theorem findById_updateById_other (rs : List KnowledgeResource)
    (rid rid' : Nat) (nr : KnowledgeResource) (hid : nr.id = rid)
    (hne : rid' ≠ rid) :
    findById (updateById rs rid nr) rid' = findById rs rid' := by
  induction rs with
  | nil => simp [findById, updateById]
  | cons x xs ih =>
    simp only [findById, updateById, List.map] at *
    by_cases hx : x.id = rid
    · rw [if_pos hx]
      have h1 : ¬ nr.id = rid' := by rw [hid]; exact fun he => hne he.symm
      have h2 : ¬ x.id = rid' := by rw [hx]; exact fun he => hne he.symm
      rw [if_neg h1, if_neg h2]
      exact ih
    · rw [if_neg hx]
      by_cases hx' : x.id = rid'
      · rw [if_pos hx', if_pos hx']
      · rw [if_neg hx', if_neg hx']
        exact ih

/-- A lookup that misses the front of an appended table continues in the
back part. -/
theorem findById_append_of_none (xs ys : List KnowledgeResource) (rid : Nat)
    (h : findById xs rid = none) :
    findById (xs ++ ys) rid = findById ys rid := by
  induction xs with
  | nil => simp
  | cons x xt ih =>
    simp only [findById, List.cons_append] at *
    by_cases hx : x.id = rid
    · rw [if_pos hx] at h
      exact absurd h (by simp)
    · rw [if_neg hx] at h ⊢
      exact ih h

/-- Saving a row that keeps the region of the row it replaces preserves
the observed region of every resource id. -/
theorem regionAfterUpdate (rs : List KnowledgeResource) (rid : Nat)
    (r nr : KnowledgeResource) (hf : findById rs rid = some r)
    (hid : nr.id = r.id) (hreg : nr.region = r.region) (rid' : Nat) :
    (findById (updateById rs rid nr) rid').map (·.region) =
      (findById rs rid').map (·.region) := by
  have hid' : nr.id = rid := by rw [hid]; exact findById_eq_id rs rid r hf
  by_cases he : rid' = rid
  · subst he
    rw [findById_updateById_self rs rid' r nr hf hid', hf]
    simp [hreg]
  · rw [findById_updateById_other rs rid rid' nr hid' he]

/-- Flag-row insertion never touches the resource table. -/
theorem addFlagRows_resources (l : List (FlagType × Severity × String)) :
    ∀ (db : DB) (rid : Nat) (v : Option Nat),
      (addFlagRows db rid v l).resources = db.resources := by
  induction l with
  | nil => intro db rid v; rfl
  | cons t ts ih =>
    intro db rid v
    cases t with
    | mk ft rest => cases rest with
      | mk sv m => exact ih _ rid v

/-- Flag-row insertion preserves every existing flag row. -/
theorem addFlagRows_superset (l : List (FlagType × Severity × String)) :
    ∀ (db : DB) (rid : Nat) (v : Option Nat) (fl : AIFlag),
      fl ∈ db.flags → fl ∈ (addFlagRows db rid v l).flags := by
  induction l with
  | nil => intro db rid v fl h; exact h
  | cons t ts ih =>
    intro db rid v fl h
    cases t with
    | mk ft rest => cases rest with
      | mk sv m =>
        exact ih _ rid v fl (by simp [h])

/-- Every finding handed to the flag writer ends up as a flag row with
the given resource id and version binding. -/
theorem addFlagRows_mem (l : List (FlagType × Severity × String)) :
    ∀ (db : DB) (rid : Nat) (v : Option Nat)
      (t : FlagType × Severity × String), t ∈ l →
      ∃ fl ∈ (addFlagRows db rid v l).flags,
        fl.resourceId = rid ∧ fl.versionId = v ∧ fl.flag_type = t.1
          ∧ fl.severity = t.2.1 ∧ fl.message = t.2.2 := by
  induction l with
  | nil => intro db rid v t h; simp at h
  | cons s ts ih =>
    intro db rid v t h
    rcases List.mem_cons.mp h with he | hm
    · subst he
      cases t with
      | mk ft rest => cases rest with
        | mk sv m =>
          refine ⟨{ id := db.nextFlagId, resourceId := rid, versionId := v,
                    flag_type := ft, severity := sv, message := m,
                    created_at := db.now }, ?_, rfl, rfl, rfl, rfl, rfl⟩
          exact addFlagRows_superset ts _ rid v _ (by simp)
    · cases s with
      | mk ft rest => cases rest with
        | mk sv m => exact ih _ rid v t hm

/-- The queue order is total. -/
theorem queueBefore_total (a b : KnowledgeResource) :
    queueBefore a b = true ∨ queueBefore b a = true := by
  simp only [queueBefore, decide_eq_true_eq]
  omega

/-- The queue order is transitive. -/
theorem queueBefore_trans (a b c : KnowledgeResource)
    (hab : queueBefore a b = true) (hbc : queueBefore b c = true) :
    queueBefore a c = true := by
  simp only [queueBefore, decide_eq_true_eq] at *
  omega

instance : IsTotal KnowledgeResource QBefore :=
  ⟨queueBefore_total⟩

instance : IsTrans KnowledgeResource QBefore :=
  ⟨queueBefore_trans⟩

/-- The allocation rule of the source equals one plus the maximum
existing version number of the resource (one, when none exist). -/
theorem dbNextVersionNumber_eq_max_succ (db : DB) (rid : Nat) :
    dbNextVersionNumber db rid = maxVersionNumber db rid + 1 := by
  unfold dbNextVersionNumber maxVersionNumber
  cases h : (db.versions.filter (fun v => v.resourceId = rid)).map (·.version_number) with
  | nil => simp
  | cons n ns => simp [List.foldl, Nat.zero_max]

/-- Validity of the optional `region` request value: absent or one of
the model field choices. -/
def regionParamOk : Option String → Bool
  | none => true
  | some s => (regionFromString s).isSome

/-- Validity of the optional `metadata` request value: absent, empty, or
a decoded JSON object. -/
def metaParamOk : Option MetaField → Bool
  | none => true
  | some .emptyStr => true
  | some (.objVal _) => true
  | some .notAnObject => false
  | some .invalidJson => false

/-- A valid region value lets the region update step succeed, keeping
the row id. -/
theorem regionStep_ok (reg : Option String) (h : regionParamOk reg = true)
    (r : KnowledgeResource) :
    ∃ r', regionStep r reg = .ok r' ∧ r'.id = r.id := by
  cases reg with
  | none => exact ⟨r, rfl, rfl⟩
  | some s =>
    simp only [regionParamOk, Option.isSome] at h
    cases hs : regionFromString s with
    | none => rw [hs] at h; simp at h
    | some rg => exact ⟨{ r with region := rg }, by simp [regionStep, hs], rfl⟩

/-- A valid metadata value lets the metadata update step succeed,
keeping the row id. -/
theorem metadataStep_ok (m : Option MetaField) (h : metaParamOk m = true)
    (r : KnowledgeResource) :
    ∃ r', metadataStep r m = .ok r' ∧ r'.id = r.id := by
  cases m with
  | none => exact ⟨r, rfl, rfl⟩
  | some mf =>
    cases mf with
    | emptyStr => exact ⟨{ r with metadata := [] }, rfl, rfl⟩
    | objVal kvs => exact ⟨{ r with metadata := kvs }, rfl, rfl⟩
    | notAnObject => simp [metaParamOk] at h
    | invalidJson => simp [metaParamOk] at h

/-- C10: a decide call on a resource whose status is PENDING_REVIEW but
whose submitted_version is null fails (the source returns the 400
"No submitted_version found" response) before any review step is
appended and before any resource field changes, even when the caller
role matches the stage: the returned state is the input state. -/
theorem C10_decide_null_lock_fails_before_writes
    (db : DB) (caller : User) (rid : Nat) (d : ReviewDecisionInput)
    (c : String) (r : KnowledgeResource)
    (hfind : findById db.resources rid = some r)
    (hst : r.status = .PENDING_REVIEW)
    (hsv : r.submitted_version = none)
    (hcom : c.length ≤ 2000)
    (hrole : stageRoleMatches caller.role r.current_stage = true) :
    decideOp db caller rid d c =
      (db, .error ⟨.InvalidState,
        "No submitted_version found for this review. Submit the resource again."⟩) := by
  have hc2 : ¬ (c.length > 2000) := by omega
  cases hcs : r.current_stage with
  | CHAMPION =>
    rw [hcs] at hrole
    simp only [stageRoleMatches, decide_eq_true_eq] at hrole
    have hrev : isReviewerRole caller.role = true := by rw [hrole]; decide
    simp [decideOp, hrev, hfind, hst, hsv, hcs, hrole, hc2]
    decide
  | REGIONAL_OFFICER =>
    rw [hcs] at hrole
    simp only [stageRoleMatches, decide_eq_true_eq] at hrole
    have hrev : isReviewerRole caller.role = true := by rw [hrole]; decide
    simp [decideOp, hrev, hfind, hst, hsv, hcs, hrole, hc2]
    decide
  | GOV_COUNCIL =>
    rw [hcs] at hrole
    simp only [stageRoleMatches, decide_eq_true_eq] at hrole
    have hrev : isReviewerRole caller.role = true := by rw [hrole]; decide
    simp [decideOp, hrev, hfind, hst, hsv, hcs, hrole, hc2]
    decide

/-- Concrete witness state for C10: a PENDING_REVIEW resource at the
CHAMPION stage whose submitted_version is null (the SET_NULL foreign
key permits this), and a Champion caller. -/
def resC10 : KnowledgeResource :=
  { id := 1, title := "Doc", description := "", status := .PENDING_REVIEW,
    current_stage := .CHAMPION, submitted_at := some 3,
    submitted_version := none, region := .EU, uploaded_by := 1,
    tags := [], metadata := [], latest_version := some 1,
    created_at := 0, updated_at := 0 }

/-- Database for the C10 witness. -/
def dbC10 : DB :=
  { resources := [resC10], versions := [], reviewSteps := [], flags := [],
    tagNames := [], nextResourceId := 2, nextVersionId := 2,
    nextStepId := 1, nextFlagId := 1, now := 5 }

/-- Champion caller for the C10 witness. -/
def uC10 : User := { id := 2, role := .CHAMPION, region := some .EU }

/-- C10 witness: the theorem applied at a concrete state. -/
theorem C10_decide_null_lock_witness :
    decideOp dbC10 uC10 1 .APPROVED "ok" =
      (dbC10, .error ⟨.InvalidState,
        "No submitted_version found for this review. Submit the resource again."⟩) :=
  C10_decide_null_lock_fails_before_writes dbC10 uC10 1 .APPROVED "ok" resC10
    rfl rfl rfl (by decide) (by decide)

/-- C7 counterexample state: a DRAFT resource. -/
def resC7 : KnowledgeResource :=
  { id := 1, title := "Doc", description := "", status := .DRAFT,
    current_stage := .CHAMPION, submitted_at := none,
    submitted_version := none, region := .EU, uploaded_by := 1,
    tags := [], metadata := [], latest_version := some 1,
    created_at := 0, updated_at := 0 }

/-- C7 counterexample database. -/
def dbC7 : DB :=
  { resources := [resC7], versions := [], reviewSteps := [], flags := [],
    tagNames := [], nextResourceId := 2, nextVersionId := 2,
    nextStepId := 1, nextFlagId := 1, now := 5 }

/-- C7 counterexample: the claim says a decide on a resource not in
PENDING_REVIEW fails InvalidState, but for a caller without a reviewer
role (here an EMPLOYEE, on a DRAFT resource) the `IsReviewer`
permission gate rejects the request with Forbidden instead, before the
status is ever inspected. -/
theorem C7_counterexample :
    errKindOf (decideOp dbC7 ⟨1, .EMPLOYEE, some .EU⟩ 1 .APPROVED "").2 =
      some .Forbidden
    ∧ (decideOp dbC7 ⟨1, .EMPLOYEE, some .EU⟩ 1 .APPROVED "").1 = dbC7
    ∧ ErrKind.Forbidden ≠ ErrKind.InvalidState := by
  decide

/-- C7 (amended): for every PENDING_REVIEW resource, a decide by a
caller whose role does not match the current stage fails Forbidden and
changes nothing (this covers non-reviewer roles, rejected by the
permission gate, and reviewer roles at the wrong stage); a decide on a
resource not in PENDING_REVIEW fails InvalidState when the caller holds
a reviewer role, while a caller without a reviewer role fails Forbidden
at the gate regardless of status. -/
theorem C7_decide_stage_authorization
    (db : DB) (caller : User) (rid : Nat) (d : ReviewDecisionInput)
    (c : String) (r : KnowledgeResource)
    (hfind : findById db.resources rid = some r) :
    (r.status = .PENDING_REVIEW → c.length ≤ 2000 →
      stageRoleMatches caller.role r.current_stage = false →
      (decideOp db caller rid d c).1 = db
      ∧ errKindOf (decideOp db caller rid d c).2 = some .Forbidden)
    ∧ (r.status ≠ .PENDING_REVIEW → isReviewerRole caller.role = true →
      decideOp db caller rid d c =
        (db, .error ⟨.InvalidState, "Resource is not pending review."⟩)) := by
  constructor
  · intro hst hcom hmm
    have hc2 : ¬ (c.length > 2000) := by omega
    by_cases hrev : isReviewerRole caller.role = true
    · cases hcs : r.current_stage with
      | CHAMPION =>
        rw [hcs] at hmm
        simp only [stageRoleMatches, decide_eq_true_eq] at hmm
        have hne : caller.role ≠ .CHAMPION := by
          simpa using hmm
        simp [decideOp, hrev, hfind, hst, hcs, hc2, hne, errKindOf]
      | REGIONAL_OFFICER =>
        rw [hcs] at hmm
        simp only [stageRoleMatches, decide_eq_true_eq] at hmm
        have hne : caller.role ≠ .OFFICER := by
          simpa using hmm
        simp [decideOp, hrev, hfind, hst, hcs, hc2, hne, errKindOf]
      | GOV_COUNCIL =>
        rw [hcs] at hmm
        simp only [stageRoleMatches, decide_eq_true_eq] at hmm
        have hne : caller.role ≠ .COUNCIL := by
          simpa using hmm
        simp [decideOp, hrev, hfind, hst, hcs, hc2, hne, errKindOf]
    · have hrev' : isReviewerRole caller.role = false :=
        Bool.not_eq_true _ ▸ Bool.eq_false_iff.mpr (fun h => hrev h)
      simp [decideOp, hrev', errKindOf]
  · intro hst hrev
    simp [decideOp, hrev, hfind, hst]

/-- C7 witness state: a PENDING_REVIEW resource at the CHAMPION stage
with a lock set. -/
def resC7p : KnowledgeResource :=
  { id := 1, title := "Doc", description := "", status := .PENDING_REVIEW,
    current_stage := .CHAMPION, submitted_at := some 3,
    submitted_version := some 1, region := .EU, uploaded_by := 1,
    tags := [], metadata := [], latest_version := some 1,
    created_at := 0, updated_at := 0 }

/-- C7 witness database. -/
def dbC7p : DB :=
  { resources := [resC7p], versions := [], reviewSteps := [], flags := [],
    tagNames := [], nextResourceId := 2, nextVersionId := 2,
    nextStepId := 1, nextFlagId := 1, now := 5 }

/-- C7 witness: both conjuncts of the amended theorem applied at
concrete states — an Officer deciding at the CHAMPION stage is rejected
Forbidden without a state change, and a Champion deciding on a DRAFT
resource gets the InvalidState response. -/
theorem C7_decide_stage_authorization_witness :
    ((decideOp dbC7p ⟨3, .OFFICER, some .EU⟩ 1 .APPROVED "c").1 = dbC7p
      ∧ errKindOf (decideOp dbC7p ⟨3, .OFFICER, some .EU⟩ 1 .APPROVED "c").2 =
          some .Forbidden)
    ∧ decideOp dbC7 ⟨2, .CHAMPION, some .EU⟩ 1 .APPROVED "c" =
        (dbC7, .error ⟨.InvalidState, "Resource is not pending review."⟩) :=
  ⟨(C7_decide_stage_authorization dbC7p ⟨3, .OFFICER, some .EU⟩ 1 .APPROVED "c"
      resC7p rfl).1 rfl (by decide) (by decide),
   (C7_decide_stage_authorization dbC7 ⟨2, .CHAMPION, some .EU⟩ 1 .APPROVED "c"
      resC7 rfl).2 (by decide) (by decide)⟩

/-- C3 (amended): when the Flag Generator raises during submit, the
whole submit transition is rolled back by the surrounding
`@transaction.atomic` block — the returned state is exactly the input
state (no status change, no lock, no Submitted step, no flags) and the
call fails; nothing of the transition commits. -/
theorem C3_ai_failure_rolls_back_submit
    (db : DB) (caller : User) (rid : Nat) :
    (submitOp db caller rid true).1 = db
    ∧ isErr (submitOp db caller rid true).2 = true := by
  unfold submitOp
  cases hf : findOwned db.resources rid caller.id with
  | none => exact ⟨rfl, rfl⟩
  | some r =>
    dsimp only
    by_cases h1 : r.status = .APPROVED ∨ r.status = .PUBLISHED
    · simp [h1, isErr]
    · rw [if_neg h1]
      by_cases h2 : r.status = .PENDING_REVIEW
      · simp [h2, isErr]
      · rw [if_neg h2]
        cases hl : r.latest_version with
        | none => exact ⟨rfl, rfl⟩
        | some lv => exact ⟨rfl, rfl⟩

/-- C3 counterexample state: an owned DRAFT resource with one version,
ready to submit. -/
def resC3 : KnowledgeResource :=
  { id := 1, title := "Doc", description := "A long enough description of the artifact.",
    status := .DRAFT, current_stage := .CHAMPION, submitted_at := none,
    submitted_version := none, region := .EU, uploaded_by := 1,
    tags := ["security"], metadata := [("confidentiality", "internal")],
    latest_version := some 1, created_at := 0, updated_at := 0 }

/-- C3 counterexample version row. -/
def verC3 : KnowledgeResourceVersion :=
  { id := 1, resourceId := 1, version_number := 1, file := "doc.pdf",
    notes := "", created_by := 1, created_at := 0 }

/-- C3 counterexample database. -/
def dbC3 : DB :=
  { resources := [resC3], versions := [verC3], reviewSteps := [], flags := [],
    tagNames := ["security"], nextResourceId := 2, nextVersionId := 2,
    nextStepId := 1, nextFlagId := 1, now := 7 }

/-- C3 counterexample: the claim says a Flag Generator failure leaves
the submit committed (status PENDING_REVIEW, lock set, Submitted step
recorded).  On a state where submit succeeds when the generator works
(last conjunct), a generator failure instead leaves status DRAFT, no
lock and no review step: the transition rolled back. -/
theorem C3_counterexample :
    statusOf (submitOp dbC3 ⟨1, .EMPLOYEE, some .EU⟩ 1 true).1 1 = some .DRAFT
    ∧ submittedVersionOf (submitOp dbC3 ⟨1, .EMPLOYEE, some .EU⟩ 1 true).1 1 =
        some none
    ∧ ((submitOp dbC3 ⟨1, .EMPLOYEE, some .EU⟩ 1 true).1).reviewSteps = []
    ∧ isErr (submitOp dbC3 ⟨1, .EMPLOYEE, some .EU⟩ 1 true).2 = true
    ∧ statusOf (submitOp dbC3 ⟨1, .EMPLOYEE, some .EU⟩ 1 false).1 1 =
        some .PENDING_REVIEW := by
  decide

/-- Uploader for the C1 trace. -/
def uC1emp : User := { id := 1, role := .EMPLOYEE, region := some .EU }

/-- Champion reviewer for the C1 trace. -/
def uC1champ : User := { id := 2, role := .CHAMPION, region := some .EU }

/-- Officer reviewer for the C1 trace. -/
def uC1off : User := { id := 3, role := .OFFICER, region := some .EU }

/-- Council reviewer for the C1 trace. -/
def uC1coun : User := { id := 4, role := .COUNCIL, region := none }

/-- The empty initial database. -/
def dbEmpty : DB :=
  { resources := [], versions := [], reviewSteps := [], flags := [],
    tagNames := [], nextResourceId := 1, nextVersionId := 1,
    nextStepId := 1, nextFlagId := 1, now := 0 }

/-- Creation payload for the C1 trace. -/
def pC1 : CreateParams :=
  { title := "policy doc",
    description := "a sufficiently long description of the artifact.",
    metadata := [("confidentiality", "internal")],
    file := some "policy.pdf", tags := some "security" }

/-- C1 trace, step 1: create the resource (id 1, version 1). -/
def dbC1a : DB := (createResource dbEmpty uC1emp pC1).1

/-- C1 trace, step 2: the uploader submits for review. -/
def dbC1b : DB := (submitOp dbC1a uC1emp 1 false).1

/-- C1 trace, step 3: the Champion approves. -/
def dbC1c : DB := (decideOp dbC1b uC1champ 1 .APPROVED "ok").1

/-- C1 trace, step 4: the Officer approves. -/
def dbC1d : DB := (decideOp dbC1c uC1off 1 .APPROVED "ok").1

/-- C1 trace, step 5: the Council approves — the final transition. -/
def dbC1e : DB := (decideOp dbC1d uC1coun 1 .APPROVED "ok").1

/-- C1: the lock invariant fails on a reachable state.  After a full
create / submit / approve / approve / approve(GovCouncil) trace the
resource has status APPROVED while submitted_version is still version 1
(the GOV_COUNCIL branch of `ReviewDecisionView.post` saves only
`status` and `updated_at` and never clears the lock), contradicting
"submitted_version is non-null iff status = PendingReview" and in
particular the claim that the final approval leaves it null. -/
theorem C1_lock_invariant_broken_by_final_approval :
    submittedVersionOf dbC1b 1 = some (some 1)
    ∧ stageOf dbC1d 1 = some .GOV_COUNCIL
    ∧ statusOf dbC1e 1 = some .APPROVED
    ∧ submittedVersionOf dbC1e 1 = some (some 1)
    ∧ submittedVersionOf dbC1e 1 ≠ some none := by
  decide

/-- C2 state: an APPROVED resource uploaded by employee 1 (the
submitted_version is still set, as the final approval leaves it — see
C1). -/
def resC2 : KnowledgeResource :=
  { id := 1, title := "doc", description := "", status := .APPROVED,
    current_stage := .GOV_COUNCIL, submitted_at := some 5,
    submitted_version := some 1, region := .EU, uploaded_by := 1,
    tags := [], metadata := [], latest_version := some 1,
    created_at := 0, updated_at := 0 }

/-- C2 version row. -/
def verC2 : KnowledgeResourceVersion :=
  { id := 1, resourceId := 1, version_number := 1, file := "doc.pdf",
    notes := "", created_by := 1, created_at := 0 }

/-- C2 database. -/
def dbC2 : DB :=
  { resources := [resC2], versions := [verC2], reviewSteps := [], flags := [],
    tagNames := [], nextResourceId := 2, nextVersionId := 2,
    nextStepId := 1, nextFlagId := 1, now := 10 }

/-- C2: the claim says publish succeeds for the uploader and for an
Admin on an Approved resource.  In the source
`PublishResourceView.permission_classes = [IsEmployee, IsGovCouncil]`
and DRF requires every class to pass, so the uploader (role EMPLOYEE,
publishing their own APPROVED resource) and an Admin are both rejected
Forbidden at the gate with no state change; only a Council caller gets
through (last conjunct). -/
theorem C2_publish_gate_rejects_uploader_and_admin :
    errKindOf (publishOp dbC2 ⟨1, .EMPLOYEE, some .EU⟩ 1).2 = some .Forbidden
    ∧ (publishOp dbC2 ⟨1, .EMPLOYEE, some .EU⟩ 1).1 = dbC2
    ∧ errKindOf (publishOp dbC2 ⟨9, .ADMIN, none⟩ 1).2 = some .Forbidden
    ∧ (publishOp dbC2 ⟨9, .ADMIN, none⟩ 1).1 = dbC2
    ∧ statusOf (publishOp dbC2 ⟨4, .COUNCIL, none⟩ 1).1 1 = some .PUBLISHED := by
  decide

/-- C5 state: a DRAFT resource owned by employee 1, with one existing
version and one tag. -/
def resC5 : KnowledgeResource :=
  { id := 1, title := "doc", description := "", status := .DRAFT,
    current_stage := .CHAMPION, submitted_at := none,
    submitted_version := none, region := .EU, uploaded_by := 1,
    tags := ["old"], metadata := [], latest_version := some 1,
    created_at := 0, updated_at := 0 }

/-- C5 existing version row. -/
def verC5 : KnowledgeResourceVersion :=
  { id := 1, resourceId := 1, version_number := 1, file := "v1.pdf",
    notes := "", created_by := 1, created_at := 0 }

/-- C5 database. -/
def dbC5 : DB :=
  { resources := [resC5], versions := [verC5], reviewSteps := [], flags := [],
    tagNames := ["old"], nextResourceId := 2, nextVersionId := 2,
    nextStepId := 1, nextFlagId := 1, now := 20 }

/-- C5 upload payload: a file plus a malformed tags value (a string
starting with `[` that json.loads rejects). -/
def pC5 : UploadVersionParams :=
  { title := none, description := none, region := none, metadata := none,
    file := some "v2.pdf", notes := none, tags := .values ["[oops"] }

/-- C5: the claim says a failed uploadNewVersion leaves no partial
write.  With a malformed tags payload the source creates the new
`KnowledgeResourceVersion` row BEFORE parsing tags and then returns a
400 response, which does not abort the atomic block: the call fails,
yet a new orphan version row (id 2, number 2) persists, while
`latest_version`, status, stage, lock and the tag set stay unchanged. -/
theorem C5_failed_upload_leaves_orphan_version_row :
    errKindOf (uploadNewVersion dbC5 ⟨1, .EMPLOYEE, some .EU⟩ 1 pC5).2 =
      some .ValidationError
    ∧ ((uploadNewVersion dbC5 ⟨1, .EMPLOYEE, some .EU⟩ 1 pC5).1).versions =
        [verC5,
         { id := 2, resourceId := 1, version_number := 2, file := "v2.pdf",
           notes := "", created_by := 1, created_at := 20 }]
    ∧ latestVersionOf (uploadNewVersion dbC5 ⟨1, .EMPLOYEE, some .EU⟩ 1 pC5).1 1 =
        some (some 1)
    ∧ statusOf (uploadNewVersion dbC5 ⟨1, .EMPLOYEE, some .EU⟩ 1 pC5).1 1 =
        some .DRAFT
    ∧ tagsOf (uploadNewVersion dbC5 ⟨1, .EMPLOYEE, some .EU⟩ 1 pC5).1 1 =
        some ["old"] := by
  decide

/-- Valid optional region and metadata values let the in-memory update
phase succeed, keeping the row id. -/
theorem applyOptionalUpdates_ok (r : KnowledgeResource)
    (p : UploadVersionParams) (hr : regionParamOk p.region = true)
    (hm : metaParamOk p.metadata = true) :
    ∃ r', applyOptionalUpdates r p = .ok r' ∧ r'.id = r.id := by
  unfold applyOptionalUpdates
  cases ht : p.title with
  | none =>
    cases hd : p.description with
    | none =>
      dsimp only
      obtain ⟨r3, h3, hid3⟩ := regionStep_ok p.region hr r
      rw [h3]
      obtain ⟨r4, h4, hid4⟩ := metadataStep_ok p.metadata hm r3
      exact ⟨r4, h4, by rw [hid4, hid3]⟩
    | some dsc =>
      dsimp only
      obtain ⟨r3, h3, hid3⟩ := regionStep_ok p.region hr { r with description := dsc }
      rw [h3]
      obtain ⟨r4, h4, hid4⟩ := metadataStep_ok p.metadata hm r3
      exact ⟨r4, h4, by rw [hid4, hid3]⟩
  | some t =>
    cases hd : p.description with
    | none =>
      dsimp only
      obtain ⟨r3, h3, hid3⟩ := regionStep_ok p.region hr { r with title := t }
      rw [h3]
      obtain ⟨r4, h4, hid4⟩ := metadataStep_ok p.metadata hm r3
      exact ⟨r4, h4, by rw [hid4, hid3]⟩
    | some dsc =>
      dsimp only
      obtain ⟨r3, h3, hid3⟩ := regionStep_ok p.region hr
        { r with title := t, description := dsc }
      rw [h3]
      obtain ⟨r4, h4, hid4⟩ := metadataStep_ok p.metadata hm r3
      exact ⟨r4, h4, by rw [hid4, hid3]⟩

/-- C4: for a resource in Draft, Rejected, Flagged, Approved or
ChangeRequested, a successful uploadNewVersion by the uploader creates
a version row numbered one above the current maximum (one when no
version exists, since the maximum is then zero), and the saved resource
row points latest_version at it with status reset to DRAFT, stage reset
to CHAMPION and submitted_version cleared — all in the same operation;
it fails InvalidState when the status is PENDING_REVIEW or PUBLISHED,
and fails ValidationError when no file is supplied. -/
theorem C4_upload_allocates_next_number_and_resets
    (db : DB) (caller : User) (rid : Nat) (p : UploadVersionParams)
    (r : KnowledgeResource)
    (hfind : findOwned db.resources rid caller.id = some r) :
    ((r.status = .DRAFT ∨ r.status = .REJECTED ∨ r.status = .FLAGGED
        ∨ r.status = .APPROVED ∨ r.status = .CHANGE_REQUESTED) →
      regionParamOk p.region = true →
      metaParamOk p.metadata = true →
      ∀ (f : String) (tl : List String), p.file = some f →
        parse_tags_from_request p.tags = .ok tl →
        ∃ (nv : KnowledgeResourceVersion) (nr : KnowledgeResource),
          (uploadNewVersion db caller rid p).1.versions = db.versions ++ [nv]
          ∧ nv.resourceId = rid
          ∧ nv.version_number = maxVersionNumber db rid + 1
          ∧ (uploadNewVersion db caller rid p).2 = .ok nv.version_number
          ∧ findById (uploadNewVersion db caller rid p).1.resources rid = some nr
          ∧ nr.latest_version = some nv.id
          ∧ nr.status = .DRAFT
          ∧ nr.current_stage = .CHAMPION
          ∧ nr.submitted_version = none)
    ∧ ((r.status = .PENDING_REVIEW ∨ r.status = .PUBLISHED) →
        uploadNewVersion db caller rid p =
          (db, .error ⟨.InvalidState,
            "Cannot upload a new version while resource is in review/published."⟩))
    ∧ ((r.status = .DRAFT ∨ r.status = .REJECTED ∨ r.status = .FLAGGED
        ∨ r.status = .APPROVED ∨ r.status = .CHANGE_REQUESTED) →
      regionParamOk p.region = true →
      metaParamOk p.metadata = true →
      p.file = none →
        uploadNewVersion db caller rid p =
          (db, .error ⟨.ValidationError, "file is required."⟩)) := by
  obtain ⟨hfid, hup⟩ := findOwned_some _ _ _ _ hfind
  have hrid : r.id = rid := findById_eq_id _ _ _ hfid
  refine ⟨?_, ?_, ?_⟩
  · intro hst hreg hmeta f tl hf ht
    obtain ⟨r4, hap, hid4⟩ := applyOptionalUpdates_ok r p hreg hmeta
    unfold uploadNewVersion
    rw [hfind]
    dsimp only
    rw [if_neg (not_not_intro hst), hap]
    dsimp only
    rw [hf]
    dsimp only
    rw [ht]
    dsimp only
    refine ⟨_, _, rfl, rfl, dbNextVersionNumber_eq_max_succ db rid, rfl,
      findById_updateById_self db.resources rid r _ hfid ?_, rfl, rfl, rfl, rfl⟩
    exact hid4.trans hrid
  · intro hst
    unfold uploadNewVersion
    rw [hfind]
    dsimp only
    have hno : ¬ (r.status = .DRAFT ∨ r.status = .REJECTED ∨ r.status = .FLAGGED
        ∨ r.status = .APPROVED ∨ r.status = .CHANGE_REQUESTED) := by
      rcases hst with h | h <;> simp [h]
    rw [if_pos hno]
  · intro hst hreg hmeta hfnone
    obtain ⟨r4, hap, hid4⟩ := applyOptionalUpdates_ok r p hreg hmeta
    unfold uploadNewVersion
    rw [hfind]
    dsimp only
    rw [if_neg (not_not_intro hst), hap]
    dsimp only
    rw [hfnone]

/-- C4 witness resource: DRAFT, owned by employee 1, one existing
version. -/
def resC4 : KnowledgeResource :=
  { id := 1, title := "doc", description := "", status := .DRAFT,
    current_stage := .CHAMPION, submitted_at := none,
    submitted_version := none, region := .EU, uploaded_by := 1,
    tags := [], metadata := [], latest_version := some 1,
    created_at := 0, updated_at := 0 }

/-- C4 witness resource in review (for the InvalidState conjunct). -/
def resC4p : KnowledgeResource :=
  { resC4 with status := .PENDING_REVIEW, submitted_version := some 1, submitted_at := some 3 }

/-- C4 witness existing version row. -/
def verC4 : KnowledgeResourceVersion :=
  { id := 1, resourceId := 1, version_number := 1, file := "v1.pdf",
    notes := "", created_by := 1, created_at := 0 }

/-- C4 witness database (DRAFT resource). -/
def dbC4 : DB :=
  { resources := [resC4], versions := [verC4], reviewSteps := [], flags := [],
    tagNames := [], nextResourceId := 2, nextVersionId := 2,
    nextStepId := 1, nextFlagId := 1, now := 30 }

/-- C4 witness database (PENDING_REVIEW resource). -/
def dbC4p : DB :=
  { dbC4 with resources := [resC4p] }

/-- C4 witness caller. -/
def uC4 : User := { id := 1, role := .EMPLOYEE, region := some .EU }

/-- C4 witness payload with a file and no tags. -/
def pC4 : UploadVersionParams :=
  { title := none, description := none, region := none, metadata := none,
    file := some "v2.pdf", notes := none, tags := .absent }

/-- C4 witness payload without a file. -/
def pC4nofile : UploadVersionParams :=
  { pC4 with file := none }

/-- C4 witness: the theorem applied at concrete states — a successful
upload on the DRAFT resource, the InvalidState failure on the
PENDING_REVIEW resource, and the ValidationError failure without a
file. -/
theorem C4_upload_witness :
    (∃ (nv : KnowledgeResourceVersion) (nr : KnowledgeResource),
      (uploadNewVersion dbC4 uC4 1 pC4).1.versions = dbC4.versions ++ [nv]
      ∧ nv.resourceId = 1
      ∧ nv.version_number = maxVersionNumber dbC4 1 + 1
      ∧ (uploadNewVersion dbC4 uC4 1 pC4).2 = .ok nv.version_number
      ∧ findById (uploadNewVersion dbC4 uC4 1 pC4).1.resources 1 = some nr
      ∧ nr.latest_version = some nv.id
      ∧ nr.status = .DRAFT
      ∧ nr.current_stage = .CHAMPION
      ∧ nr.submitted_version = none)
    ∧ uploadNewVersion dbC4p uC4 1 pC4 =
        (dbC4p, .error ⟨.InvalidState,
          "Cannot upload a new version while resource is in review/published."⟩)
    ∧ uploadNewVersion dbC4 uC4 1 pC4nofile =
        (dbC4, .error ⟨.ValidationError, "file is required."⟩) :=
  ⟨(C4_upload_allocates_next_number_and_resets dbC4 uC4 1 pC4 resC4 rfl).1
      (Or.inl rfl) rfl rfl "v2.pdf" [] rfl rfl,
   (C4_upload_allocates_next_number_and_resets dbC4p uC4 1 pC4 resC4p rfl).2.1
      (Or.inl rfl),
   (C4_upload_allocates_next_number_and_resets dbC4 uC4 1 pC4nofile resC4 rfl).2.2
      (Or.inl rfl) rfl rfl rfl⟩

/-- C6 counterexample resource: region NA, owned by employee 1. -/
def resC6 : KnowledgeResource :=
  { id := 1, title := "doc", description := "", status := .DRAFT,
    current_stage := .CHAMPION, submitted_at := none,
    submitted_version := none, region := .NA, uploaded_by := 1,
    tags := [], metadata := [], latest_version := some 1,
    created_at := 0, updated_at := 0 }

/-- C6 counterexample version row. -/
def verC6 : KnowledgeResourceVersion :=
  { id := 1, resourceId := 1, version_number := 1, file := "v1.pdf",
    notes := "", created_by := 1, created_at := 0 }

/-- C6 counterexample database. -/
def dbC6 : DB :=
  { resources := [resC6], versions := [verC6], reviewSteps := [],
    flags := [], tagNames := [], nextResourceId := 2, nextVersionId := 2,
    nextStepId := 1, nextFlagId := 1, now := 40 }

/-- C6 upload payload carrying a region change to EU. -/
def pC6 : UploadVersionParams :=
  { title := none, description := none, region := some "EU",
    metadata := none, file := some "v2.pdf", notes := none, tags := .absent }

/-- C6 counterexample: the claim says no subsequent operation ever
changes the region, but `UploadNewVersionView.post` accepts an optional
`region` value and saves it: an upload with `region = "EU"` on an NA
resource succeeds and leaves the resource with region EU. -/
theorem C6_counterexample :
    regionOf dbC6 1 = some .NA
    ∧ isErr (uploadNewVersion dbC6 ⟨1, .EMPLOYEE, some .NA⟩ 1 pC6).2 = false
    ∧ regionOf (uploadNewVersion dbC6 ⟨1, .EMPLOYEE, some .NA⟩ 1 pC6).1 1 =
        some .EU := by
  decide

/-- C6 (amended): the region is set at creation from the uploader
profile (creation fails when the profile has none), and submit, decide,
publish and unpublish never change any resource region; uploadNewVersion
however may change it when a valid region value is supplied. -/
theorem C6_region_set_at_creation_and_preserved :
    (∀ (db : DB) (caller : User) (p : CreateParams) (reg : Region) (f : String),
      caller.region = some reg → p.file = some f →
      findById db.resources db.nextResourceId = none →
      (createResource db caller p).2 = .ok db.nextResourceId
      ∧ regionOf (createResource db caller p).1 db.nextResourceId = some reg)
    ∧ (∀ (db : DB) (caller : User) (rid : Nat) (b : Bool) (rid' : Nat),
        regionOf (submitOp db caller rid b).1 rid' = regionOf db rid')
    ∧ (∀ (db : DB) (caller : User) (rid : Nat) (d : ReviewDecisionInput)
        (c : String) (rid' : Nat),
        regionOf (decideOp db caller rid d c).1 rid' = regionOf db rid')
    ∧ (∀ (db : DB) (caller : User) (rid : Nat) (rid' : Nat),
        regionOf (publishOp db caller rid).1 rid' = regionOf db rid')
    ∧ (∀ (db : DB) (caller : User) (rid : Nat) (rid' : Nat),
        regionOf (unpublishOp db caller rid).1 rid' = regionOf db rid') := by
  refine ⟨?_, ?_, ?_, ?_, ?_⟩
  · intro db caller p reg f hreg hf hfresh
    unfold createResource
    rw [hf, hreg]
    dsimp only
    refine ⟨rfl, ?_⟩
    unfold regionOf
    dsimp only
    rw [findById_append_of_none _ _ _ hfresh]
    simp [findById]
  · intro db caller rid b rid'
    unfold submitOp
    cases hf : findOwned db.resources rid caller.id with
    | none => rfl
    | some r =>
      obtain ⟨hfid, _⟩ := findOwned_some _ _ _ _ hf
      dsimp only
      split
      · rfl
      split
      · rfl
      cases hl : r.latest_version with
      | none => rfl
      | some lv =>
        dsimp only
        by_cases hb : b = true
        · rw [if_pos hb]
        · rw [if_neg hb]
          unfold regionOf run_ai_check
          dsimp only
          rw [addFlagRows_resources]
          dsimp only
          exact regionAfterUpdate db.resources rid r _ hfid (by rfl) (by rfl) rid'
  · intro db caller rid d c rid'
    unfold decideOp
    split
    · rfl
    cases hf : findById db.resources rid with
    | none => rfl
    | some r =>
      dsimp only
      split
      · rfl
      split
      · rfl
      split
      · rfl
      split
      · rfl
      split
      · rfl
      cases hsv : r.submitted_version with
      | none => rfl
      | some sv =>
        dsimp only
        cases d with
        | REJECTED =>
          unfold regionOf
          dsimp only
          exact regionAfterUpdate db.resources rid r _ hf (by rfl) (by rfl) rid'
        | FLAGGED =>
          unfold regionOf
          dsimp only
          exact regionAfterUpdate db.resources rid r _ hf (by rfl) (by rfl) rid'
        | CHANGES_REQUESTED =>
          unfold regionOf
          dsimp only
          exact regionAfterUpdate db.resources rid r _ hf (by rfl) (by rfl) rid'
        | APPROVED =>
          cases hcs : r.current_stage with
          | CHAMPION =>
            unfold regionOf
            dsimp only
            exact regionAfterUpdate db.resources rid r _ hf (by rfl) (by rfl) rid'
          | REGIONAL_OFFICER =>
            unfold regionOf
            dsimp only
            exact regionAfterUpdate db.resources rid r _ hf (by rfl) (by rfl) rid'
          | GOV_COUNCIL =>
            unfold regionOf
            dsimp only
            exact regionAfterUpdate db.resources rid r _ hf (by rfl) (by rfl) rid'
  · intro db caller rid rid'
    unfold publishOp
    split
    · rfl
    cases hf : findById db.resources rid with
    | none => rfl
    | some r =>
      dsimp only
      split
      · rfl
      split
      · rfl
      unfold regionOf
      dsimp only
      exact regionAfterUpdate db.resources rid r _ hf (by rfl) (by rfl) rid'
  · intro db caller rid rid'
    unfold unpublishOp
    split
    · rfl
    split
    · rfl
    cases hf : findById db.resources rid with
    | none => rfl
    | some r =>
      dsimp only
      split
      · rfl
      unfold regionOf
      dsimp only
      exact regionAfterUpdate db.resources rid r _ hf (by rfl) (by rfl) rid'

/-- C6 witness: the amended theorem applied at concrete states — the
created resource carries the uploader region EU, and a subsequent
submit leaves the region unchanged. -/
theorem C6_region_witness :
    ((createResource dbEmpty uC1emp pC1).2 = .ok dbEmpty.nextResourceId
      ∧ regionOf (createResource dbEmpty uC1emp pC1).1 dbEmpty.nextResourceId =
          some .EU)
    ∧ regionOf (submitOp dbC1a uC1emp 1 false).1 1 = regionOf dbC1a 1 :=
  ⟨(C6_region_set_at_creation_and_preserved.1 dbEmpty uC1emp pC1 .EU
      "policy.pdf" rfl rfl rfl),
   (C6_region_set_at_creation_and_preserved.2.1 dbC1a uC1emp 1 false 1)⟩

/-- C8: the review queue returns, for a Champion (resp. Officer), exactly
the PENDING_REVIEW resources at the CHAMPION (resp. REGIONAL_OFFICER)
stage whose region is the reviewer region or GLOBAL (only GLOBAL when
the reviewer has none); Council and Admin get all regions at the
GOV_COUNCIL stage; every returned queue is sorted by submitted_at
descending with created_at descending as tie-break; and the operation
never changes the state. -/
theorem C8_review_queue_contents_order_and_purity :
    (∀ (db : DB) (u : User), (reviewQueue db u).1 = db)
    ∧ (∀ (db : DB) (u : User) (l : List KnowledgeResource)
        (x : KnowledgeResource), u.role = .CHAMPION →
        (reviewQueue db u).2 = .ok l →
        (x ∈ l ↔ x ∈ db.resources ∧ x.status = .PENDING_REVIEW
          ∧ x.current_stage = .CHAMPION
          ∧ (match u.region with
             | some ur => x.region = ur ∨ x.region = Region.GLOBAL
             | none => x.region = Region.GLOBAL)))
    ∧ (∀ (db : DB) (u : User) (l : List KnowledgeResource)
        (x : KnowledgeResource), u.role = .OFFICER →
        (reviewQueue db u).2 = .ok l →
        (x ∈ l ↔ x ∈ db.resources ∧ x.status = .PENDING_REVIEW
          ∧ x.current_stage = .REGIONAL_OFFICER
          ∧ (match u.region with
             | some ur => x.region = ur ∨ x.region = Region.GLOBAL
             | none => x.region = Region.GLOBAL)))
    ∧ (∀ (db : DB) (u : User) (l : List KnowledgeResource)
        (x : KnowledgeResource), (u.role = .COUNCIL ∨ u.role = .ADMIN) →
        (reviewQueue db u).2 = .ok l →
        (x ∈ l ↔ x ∈ db.resources ∧ x.status = .PENDING_REVIEW
          ∧ x.current_stage = .GOV_COUNCIL))
    ∧ (∀ (db : DB) (u : User) (l : List KnowledgeResource),
        (reviewQueue db u).2 = .ok l → l.Sorted QBefore) := by
  refine ⟨?_, ?_, ?_, ?_, ?_⟩
  · intro db u
    unfold reviewQueue
    by_cases h1 : u.role = .CHAMPION
    · rw [if_pos h1]
    · rw [if_neg h1]
      by_cases h2 : u.role = .OFFICER
      · rw [if_pos h2]
      · rw [if_neg h2]
        by_cases h3 : u.role = .COUNCIL ∨ u.role = .ADMIN
        · rw [if_pos h3]
        · rw [if_neg h3]
  · intro db u l x hrole hq
    unfold reviewQueue at hq
    rw [hrole] at hq
    simp only [reduceIte] at hq
    injection hq with hq
    subst hq
    rw [(List.perm_insertionSort QBefore _).mem_iff]
    cases hr : u.region with
    | none => simp [List.mem_filter, regionAllowed, hr, and_assoc]
    | some ur => simp [List.mem_filter, regionAllowed, hr, and_assoc]
  · intro db u l x hrole hq
    unfold reviewQueue at hq
    rw [hrole] at hq
    simp only [reduceIte] at hq
    injection hq with hq
    subst hq
    rw [(List.perm_insertionSort QBefore _).mem_iff]
    cases hr : u.region with
    | none => simp [List.mem_filter, regionAllowed, hr, and_assoc]
    | some ur => simp [List.mem_filter, regionAllowed, hr, and_assoc]
  · intro db u l x hrole hq
    unfold reviewQueue at hq
    rcases hrole with h | h <;>
      (rw [h] at hq
       simp only [reduceIte] at hq
       injection hq with hq
       subst hq
       rw [(List.perm_insertionSort QBefore _).mem_iff]
       simp [List.mem_filter, and_assoc])
  · intro db u l hq
    unfold reviewQueue at hq
    split at hq
    · injection hq with hq
      subst hq
      exact List.sorted_insertionSort QBefore _
    · split at hq
      · injection hq with hq
        subst hq
        exact List.sorted_insertionSort QBefore _
      · split at hq
        · injection hq with hq
          subst hq
          exact List.sorted_insertionSort QBefore _
        · exact absurd hq (by simp)

/-- C8 witness: an EU pending resource at the CHAMPION stage. -/
def resC8a : KnowledgeResource :=
  { id := 1, title := "a", description := "", status := .PENDING_REVIEW,
    current_stage := .CHAMPION, submitted_at := some 9,
    submitted_version := some 1, region := .EU, uploaded_by := 1,
    tags := [], metadata := [], latest_version := some 1,
    created_at := 0, updated_at := 0 }

/-- C8 witness: an NA pending resource at the CHAMPION stage, which an
EU Champion must not see. -/
def resC8b : KnowledgeResource :=
  { resC8a with id := 2, region := .NA, submitted_at := some 8 }

/-- C8 witness: an EU pending resource at the REGIONAL_OFFICER stage. -/
def resC8c : KnowledgeResource :=
  { resC8a with id := 3, current_stage := .REGIONAL_OFFICER, submitted_at := some 7 }

/-- C8 witness database. -/
def dbC8 : DB :=
  { resources := [resC8a, resC8b, resC8c], versions := [], reviewSteps := [],
    flags := [], tagNames := [], nextResourceId := 4, nextVersionId := 2,
    nextStepId := 1, nextFlagId := 1, now := 50 }

/-- C8 witness reviewer: an EU Champion. -/
def uC8 : User := { id := 2, role := .CHAMPION, region := some .EU }

/-- C8 witness: the theorem applied at a concrete state — the queue
leaves the state unchanged, contains the EU champion-stage resource,
excludes the NA one and the officer-stage one, and is sorted. -/
theorem C8_review_queue_witness :
    (reviewQueue dbC8 uC8).1 = dbC8
    ∧ (resC8a ∈ [resC8a] ↔ resC8a ∈ dbC8.resources
        ∧ resC8a.status = .PENDING_REVIEW ∧ resC8a.current_stage = .CHAMPION
        ∧ (match uC8.region with
           | some ur => resC8a.region = ur ∨ resC8a.region = Region.GLOBAL
           | none => resC8a.region = Region.GLOBAL))
    ∧ (resC8b ∈ [resC8a] ↔ resC8b ∈ dbC8.resources
        ∧ resC8b.status = .PENDING_REVIEW ∧ resC8b.current_stage = .CHAMPION
        ∧ (match uC8.region with
           | some ur => resC8b.region = ur ∨ resC8b.region = Region.GLOBAL
           | none => resC8b.region = Region.GLOBAL))
    ∧ List.Sorted QBefore [resC8a] :=
  ⟨C8_review_queue_contents_order_and_purity.1 dbC8 uC8,
   C8_review_queue_contents_order_and_purity.2.1 dbC8 uC8 [resC8a] resC8a
     rfl rfl,
   C8_review_queue_contents_order_and_purity.2.1 dbC8 uC8 [resC8a] resC8b
     rfl rfl,
   C8_review_queue_contents_order_and_purity.2.2.2.2 dbC8 uC8 [resC8a]
     rfl⟩

/-- C9: submitting a resource that has no tags and whose metadata lacks
a confidentiality key succeeds and persists (at least) two flags bound
to the submitted version: one METADATA/HIGH row for the missing
confidentiality key and one METADATA/MEDIUM row for the missing tags. -/
theorem C9_submit_produces_metadata_flags
    (db : DB) (caller : User) (rid : Nat) (r : KnowledgeResource) (vid : Nat)
    (hfind : findOwned db.resources rid caller.id = some r)
    (h1 : r.status ≠ .APPROVED) (h2 : r.status ≠ .PUBLISHED)
    (h3 : r.status ≠ .PENDING_REVIEW)
    (hlv : r.latest_version = some vid)
    (htags : r.tags = [])
    (hmeta : metaHasKey r.metadata "confidentiality" = false) :
    isErr (submitOp db caller rid false).2 = false
    ∧ (∃ fl ∈ ((submitOp db caller rid false).1).flags,
        fl.resourceId = rid ∧ fl.versionId = some vid
        ∧ fl.flag_type = .METADATA ∧ fl.severity = .HIGH
        ∧ fl.message = "Missing confidentiality in metadata (needed for compliance).")
    ∧ (∃ fl ∈ ((submitOp db caller rid false).1).flags,
        fl.resourceId = rid ∧ fl.versionId = some vid
        ∧ fl.flag_type = .METADATA ∧ fl.severity = .MEDIUM
        ∧ fl.message = "Missing tags; improves search and recommendations.") := by
  obtain ⟨hfid, hup⟩ := findOwned_some _ _ _ _ hfind
  have hrid : r.id = rid := findById_eq_id _ _ _ hfid
  unfold submitOp
  rw [hfind]
  dsimp only
  rw [if_neg (show ¬ (r.status = .APPROVED ∨ r.status = .PUBLISHED) by
        simp [h1, h2]),
      if_neg h3, hlv]
  dsimp only
  rw [if_neg (by decide : ¬ ((false : Bool) = true))]
  unfold run_ai_check
  dsimp only
  refine ⟨rfl, ?_, ?_⟩
  · simp only [← hrid]
    exact addFlagRows_mem _ _ _ _
      (FlagType.METADATA, Severity.HIGH,
        "Missing confidentiality in metadata (needed for compliance).")
      (by simp [aiFindings, htags, hmeta])
  · simp only [← hrid]
    exact addFlagRows_mem _ _ _ _
      (FlagType.METADATA, Severity.MEDIUM,
        "Missing tags; improves search and recommendations.")
      (by simp [aiFindings, htags, hmeta])

/-- C9 witness resource: a first-submission DRAFT resource with no tags
and no confidentiality key in its metadata. -/
def resC9 : KnowledgeResource :=
  { id := 1, title := "notes", description := "a sufficiently long description of the artifact.",
    status := .DRAFT, current_stage := .CHAMPION, submitted_at := none,
    submitted_version := none, region := .EU, uploaded_by := 1,
    tags := [], metadata := [("author", "me")], latest_version := some 1,
    created_at := 0, updated_at := 0 }

/-- C9 witness version row: version_number 1 (first submission). -/
def verC9 : KnowledgeResourceVersion :=
  { id := 1, resourceId := 1, version_number := 1, file := "v1.pdf",
    notes := "", created_by := 1, created_at := 0 }

/-- C9 witness database. -/
def dbC9 : DB :=
  { resources := [resC9], versions := [verC9], reviewSteps := [], flags := [],
    tagNames := [], nextResourceId := 2, nextVersionId := 2,
    nextStepId := 1, nextFlagId := 1, now := 60 }

/-- C9 witness caller (the uploader). -/
def uC9 : User := { id := 1, role := .EMPLOYEE, region := some .EU }

/-- C9 witness: the theorem applied at a concrete first submission; the
submitted version id 1 carries version_number 1. -/
theorem C9_submit_flags_witness :
    (isErr (submitOp dbC9 uC9 1 false).2 = false
    ∧ (∃ fl ∈ ((submitOp dbC9 uC9 1 false).1).flags,
        fl.resourceId = 1 ∧ fl.versionId = some 1
        ∧ fl.flag_type = .METADATA ∧ fl.severity = .HIGH
        ∧ fl.message = "Missing confidentiality in metadata (needed for compliance).")
    ∧ (∃ fl ∈ ((submitOp dbC9 uC9 1 false).1).flags,
        fl.resourceId = 1 ∧ fl.versionId = some 1
        ∧ fl.flag_type = .METADATA ∧ fl.severity = .MEDIUM
        ∧ fl.message = "Missing tags; improves search and recommendations."))
    ∧ findVersion dbC9.versions 1 = some verC9
    ∧ verC9.version_number = 1 :=
  ⟨C9_submit_produces_metadata_flags dbC9 uC9 1 resC9 1 rfl
     (by decide) (by decide) (by decide) rfl rfl rfl,
   rfl, rfl⟩
